import Mathlib

/-!
Shallow embedding of the payroll cycle processing engine of
`src/server/src/routes/app.ts`.

Numbers: the source computes with JavaScript numbers; following §4.5 of the
specification ("uses only rational arithmetic"), amounts and rates are
embedded as `ℚ`.  Identifiers are `Nat`, years/months are `ℤ`, dates are
(year, month, day) triples compared lexicographically.  SQL `Number(x) || d`
fallbacks are embedded by `numOr` (`0` standing for SQL NULL / JS falsy,
which readers of these columns cannot distinguish from `0`).
-/

namespace Payroll

/-- Calendar date (year, month, day); comparisons are lexicographic, matching
the SQL date comparisons of the source. -/
structure Date where
  y : ℤ
  m : ℤ
  d : ℤ
deriving DecidableEq, Repr

def dateLe (a b : Date) : Bool :=
  decide (a.y < b.y ∨ (a.y = b.y ∧ (a.m < b.m ∨ (a.m = b.m ∧ a.d ≤ b.d))))

def dateLt (a b : Date) : Bool :=
  decide (a.y < b.y ∨ (a.y = b.y ∧ (a.m < b.m ∨ (a.m = b.m ∧ a.d < b.d))))

/-- Gregorian leap-year rule, as implemented by the JavaScript `Date`. -/
def isLeapYear (y : ℤ) : Bool :=
  (y % 4 == 0 && y % 100 != 0) || (y % 400 == 0)

/-- `new Date(year, month, 0).getDate()` of the source (app.ts:45) for
`month ∈ 1..12`: the number of calendar days in the month. -/
def daysInMonth (year month : ℤ) : ℕ :=
  if month = 2 then (if isLeapYear year then 29 else 28)
  else if month = 4 ∨ month = 6 ∨ month = 9 ∨ month = 11 then 30
  else 31

/-- Last calendar date of a month (`new Date(year, month, 0)`). -/
def monthEndDate (year month : ℤ) : Date :=
  ⟨year, month, (daysInMonth year month : ℤ)⟩

structure Employee where
  id : Nat
  tenant_id : Nat
  status : String
  date_of_joining : Option Date
deriving DecidableEq, Repr

structure CompensationStructure where
  tenant_id : Nat
  employee_id : Nat
  effective_from : Date
  ctc : ℚ
  basic_salary : ℚ
  hra : ℚ
  special_allowance : ℚ
  da : ℚ
  lta : ℚ
  bonus : ℚ
deriving DecidableEq, Repr

structure LeaveRequest where
  tenant_id : Nat
  employee_id : Nat
  leave_type : String
  status : String
  start_date : Date
  end_date : Date
  days : ℚ
deriving DecidableEq, Repr

structure AttendanceRecord where
  tenant_id : Nat
  employee_id : Nat
  attendance_date : Date
  is_lop : Bool
deriving DecidableEq, Repr

structure PayrollSettings where
  pf_rate : ℚ
  esi_rate : ℚ
  pt_rate : ℚ
  tds_threshold : ℚ
  basic_salary_percentage : ℚ
  hra_percentage : ℚ
  special_allowance_percentage : ℚ
deriving DecidableEq, Repr

structure PayrollCycle where
  id : Nat
  tenant_id : Nat
  year : ℤ
  month : ℤ
  status : String
  total_employees : Nat
  total_amount : ℚ
deriving DecidableEq, Repr

/-- The numeric payload of a `payroll_items` row. -/
structure PayItem where
  gross_salary : ℚ
  deductions : ℚ
  net_salary : ℚ
  basic_salary : ℚ
  hra : ℚ
  special_allowance : ℚ
  pf_deduction : ℚ
  esi_deduction : ℚ
  tds_deduction : ℚ
  pt_deduction : ℚ
  lop_days : ℚ
  paid_days : ℚ
  total_working_days : ℚ
deriving DecidableEq, Repr

structure ItemRow where
  tenant_id : Nat
  payroll_cycle_id : Nat
  employee_id : Nat
  payload : PayItem
deriving DecidableEq, Repr

/-- The relational store, restricted to the tables the engine touches. -/
structure DbState where
  employees : List Employee
  comps : List CompensationStructure
  leaves : List LeaveRequest
  attendance : List AttendanceRecord
  cycles : List PayrollCycle
  items : List ItemRow
  settingsRows : List (Nat × PayrollSettings)
  nextId : Nat
deriving DecidableEq, Repr

/-- JS `Number(x) || d`: the stored value unless it is falsy. -/
def numOr (x d : ℚ) : ℚ := if x = 0 then d else x

/-- The default settings substituted when no `payroll_settings` row exists
(app.ts:514-522, 1634-1639, 2209-2214; the percentage defaults 40/40/20 are
applied by `|| 40` fallbacks in the paths whose default object omits them). -/
def defaultPayrollSettings : PayrollSettings :=
  ⟨12, 3.25, 200, 250000, 40, 40, 20⟩

def getSettingsRow (s : DbState) (tenantId : Nat) : Option PayrollSettings :=
  (s.settingsRows.find? (fun p => p.1 == tenantId)).map Prod.snd

def getSettings (s : DbState) (tenantId : Nat) : PayrollSettings :=
  (getSettingsRow s tenantId).getD defaultPayrollSettings

/-- The three-way month-overlap condition of the leave query (app.ts:56-60):
starts in the month, ends in the month, or spans the first of the month. -/
def overlapsMonth (l : LeaveRequest) (year month : ℤ) : Bool :=
  (l.start_date.y == year && l.start_date.m == month) ||
  (l.end_date.y == year && l.end_date.m == month) ||
  (dateLe l.start_date ⟨year, month, 1⟩ && dateLe ⟨year, month, 1⟩ l.end_date)

structure LopResult where
  lopDays : ℚ
  paidDays : ℚ
  totalWorkingDays : ℚ
deriving DecidableEq, Repr

/-- `calculateLopAndPaidDays` (app.ts:38-91): approved-leave LOP days (the
`SUM(CASE WHEN leave_type = 'loss_of_pay' THEN days ELSE 0 END)` over rows
passing the tenant/employee/approved/overlap filter) plus the count of
LOP-flagged attendance records in the month; paid days floored at zero. -/
def calculateLopAndPaidDays (s : DbState) (tenantId employeeId : Nat)
    (month year : ℤ) : LopResult :=
  let totalWorkingDays : ℚ := (daysInMonth year month : ℚ)
  let leaveLopDays : ℚ :=
    ((s.leaves.filter (fun l =>
        l.tenant_id == tenantId && l.employee_id == employeeId &&
        l.status == "approved" && overlapsMonth l year month)).map
      (fun l => if l.leave_type == "loss_of_pay" then l.days else 0)).sum
  let attendanceLopDays : ℚ :=
    ((s.attendance.filter (fun a =>
        a.tenant_id == tenantId && a.employee_id == employeeId &&
        a.is_lop && a.attendance_date.y == year &&
        a.attendance_date.m == month)).length : ℚ)
  let lopDays := leaveLopDays + attendanceLopDays
  let paidDays := max 0 (totalWorkingDays - lopDays)
  ⟨lopDays, paidDays, totalWorkingDays⟩

/-- Monthly earning components entering the calculator. -/
structure Components where
  basic : ℚ
  hra : ℚ
  sa : ℚ
  da : ℚ
  lta : ℚ
  bonus : ℚ
deriving DecidableEq, Repr

def Components.gross (k : Components) : ℚ :=
  k.basic + k.hra + k.sa + k.da + k.lta + k.bonus

def rawComponents (c : CompensationStructure) : Components :=
  ⟨c.basic_salary, c.hra, c.special_allowance, c.da, c.lta, c.bonus⟩

/-- CTC fallback of the backfill and past-month create paths
(app.ts:650-659, 1674-1683): when every monthly component is zero but a CTC
exists, derive basic/HRA/special allowance from the monthly CTC using the
settings percentage splits (`|| 40`, `|| 40`, `|| 20`), leaving
DA/LTA/bonus at zero. -/
def fallbackComponents (c : CompensationStructure) (st : PayrollSettings) :
    Components :=
  let k := rawComponents c
  if k.gross = 0 ∧ c.ctc ≠ 0 then
    let monthlyCtc := c.ctc / 12
    { basic := monthlyCtc * numOr st.basic_salary_percentage 40 / 100,
      hra := monthlyCtc * numOr st.hra_percentage 40 / 100,
      sa := monthlyCtc * numOr st.special_allowance_percentage 20 / 100,
      da := 0, lta := 0, bonus := 0 }
  else k

/-- The per-employee salary/deduction calculator shared by the process
(app.ts:2486-2526), backfill (app.ts:647-688) and past-month create
(app.ts:1671-1710) paths. -/
def computeSalaryItem (k : Components) (lr : LopResult)
    (st : PayrollSettings) : PayItem :=
  let grossSalary := k.gross
  let dailyRate := grossSalary / lr.totalWorkingDays
  let adjustedGross := dailyRate * lr.paidDays
  let adjustmentRatio := lr.paidDays / lr.totalWorkingDays
  let adjustedBasic := k.basic * adjustmentRatio
  let adjustedHra := k.hra * adjustmentRatio
  let adjustedSa := k.sa * adjustmentRatio
  let pf := adjustedBasic * st.pf_rate / 100
  let esi := if adjustedGross ≤ 21000 then adjustedGross * 0.75 / 100 else 0
  let pt := numOr st.pt_rate 200
  let annual := adjustedGross * 12
  let tds :=
    if st.tds_threshold < annual then (annual - st.tds_threshold) * 5 / 100 / 12
    else 0
  let deductions := pf + esi + pt + tds
  { gross_salary := adjustedGross
    deductions := deductions
    net_salary := adjustedGross - deductions
    basic_salary := adjustedBasic
    hra := adjustedHra
    special_allowance := adjustedSa
    pf_deduction := pf
    esi_deduction := esi
    tds_deduction := tds
    pt_deduction := pt
    lop_days := lr.lopDays
    paid_days := lr.paidDays
    total_working_days := lr.totalWorkingDays }

/-! ## Store lookups and writes -/

/-- `SELECT * FROM payroll_cycles WHERE id = $1 AND tenant_id = $2`. -/
def findCycle (s : DbState) (tenantId cycleId : Nat) : Option PayrollCycle :=
  s.cycles.find? (fun c => c.id == cycleId && c.tenant_id == tenantId)

/-- `SELECT ... FROM payroll_cycles WHERE tenant_id = $1 AND month = $2 AND year = $3`. -/
def findCycleByMonth (s : DbState) (tenantId : Nat) (year month : ℤ) :
    Option PayrollCycle :=
  s.cycles.find? (fun c =>
    c.tenant_id == tenantId && c.year == year && c.month == month)

def cycleStatus (s : DbState) (tenantId cycleId : Nat) : Option String :=
  (findCycle s tenantId cycleId).map (·.status)

def cycleStatusByMonth (s : DbState) (tenantId : Nat) (year month : ℤ) :
    Option String :=
  (findCycleByMonth s tenantId year month).map (·.status)

/-- `SELECT ... FROM payroll_items WHERE payroll_cycle_id = $1 AND tenant_id = $2`. -/
def cycleItems (s : DbState) (tenantId cycleId : Nat) : List ItemRow :=
  s.items.filter (fun r =>
    r.payroll_cycle_id == cycleId && r.tenant_id == tenantId)

def sumGross (l : List ItemRow) : ℚ :=
  (l.map (fun r => r.payload.gross_salary)).sum

def updateCycleRow (stt : String) (n : Nat) (a : ℚ) (c : PayrollCycle) :
    PayrollCycle :=
  { c with status := stt, total_employees := n, total_amount := a }

/-- `UPDATE payroll_cycles SET status = ..., total_employees = ...,
total_amount = ... WHERE id = $ AND tenant_id = $`. -/
def setCycleStatusTotals (s : DbState) (tenantId cycleId : Nat) (stt : String)
    (n : Nat) (a : ℚ) : DbState :=
  { s with cycles := s.cycles.map (fun c =>
      if c.id == cycleId && c.tenant_id == tenantId then updateCycleRow stt n a c
      else c) }

/-- `UPDATE payroll_cycles SET status = ... WHERE id = $ AND tenant_id = $`
(the submit/approve/reject transitions, which leave totals untouched). -/
def setCycleStatus (s : DbState) (tenantId cycleId : Nat) (stt : String) :
    DbState :=
  { s with cycles := s.cycles.map (fun c =>
      if c.id == cycleId && c.tenant_id == tenantId then { c with status := stt }
      else c) }

/-- The eligible-employee query (app.ts:604-610, 1642-1649, 2217-2225):
active and joined on or before the month end (or no joining date).  The
`ORDER BY date_of_joining` of the process path affects only iteration order
and is not modelled. -/
def eligibleEmployees (s : DbState) (tenantId : Nat) (monthEnd : Date) :
    List Employee :=
  s.employees.filter (fun e =>
    e.tenant_id == tenantId && e.status == "active" &&
    (match e.date_of_joining with
     | none => true
     | some d => dateLe d monthEnd))

/-- `SELECT * FROM compensation_structures WHERE employee_id = $1 AND
tenant_id = $2 AND effective_from <= $3 ORDER BY effective_from DESC LIMIT 1`:
the record with the greatest effective_from not after the as-of date (ties,
which the uniqueness invariant rules out, resolve to the first such row). -/
def resolveCompensation (s : DbState) (tenantId employeeId : Nat)
    (asOf : Date) : Option CompensationStructure :=
  (s.comps.filter (fun c =>
      c.employee_id == employeeId && c.tenant_id == tenantId &&
      dateLe c.effective_from asOf)).foldl
    (fun acc c =>
      match acc with
      | none => some c
      | some b => if dateLt b.effective_from c.effective_from then some c
                  else some b)
    none

/-- `INSERT INTO payroll_items ... ON CONFLICT (payroll_cycle_id, employee_id)
DO UPDATE SET ...`: replace the row with the conflicting key in place (keeping
its original tenant column, which the DO UPDATE does not touch), else append. -/
def upsertItem (t cid eid : Nat) (p : PayItem) :
    List ItemRow → List ItemRow
  | [] => [⟨t, cid, eid, p⟩]
  | r :: rs =>
    if r.payroll_cycle_id == cid && r.employee_id == eid then
      { r with payload := p } :: rs
    else r :: upsertItem t cid eid p rs

/-- Accumulator of the per-employee loops: the items table plus the running
`processedCount` and `totalGross`. -/
structure LoopAcc where
  items : List ItemRow
  processedCount : Nat
  totalGross : ℚ
deriving DecidableEq, Repr

/-! ## The three per-employee compute-and-persist loops -/

/-- Loop body of the payslips backfill (app.ts:624-718): skip employees that
already have an item for the cycle, skip employees without compensation or
with zero gross (post CTC fallback), otherwise upsert the computed item. -/
def backfillStep (s : DbState) (tenantId cycleId : Nat) (year month : ℤ)
    (st : PayrollSettings) (withItems : List Nat) (acc : LoopAcc)
    (e : Employee) : LoopAcc :=
  if e.id ∈ withItems then acc
  else
    match resolveCompensation s tenantId e.id (monthEndDate year month) with
    | none => acc
    | some c =>
      let k := fallbackComponents c st
      if k.gross = 0 then acc
      else
        let lr := calculateLopAndPaidDays s tenantId e.id month year
        let p := computeSalaryItem k lr st
        ⟨upsertItem tenantId cycleId e.id p acc.items,
         acc.processedCount + 1, acc.totalGross + p.gross_salary⟩

def lockedStatuses : List String := ["approved", "processing", "completed"]

/-- Loop body of the fresh-compute branch of `process` (app.ts:2458-2582): no
CTC fallback, no zero-gross skip; the locked-cycle check (app.ts:2531-2534)
skips the upsert whenever the cycle status is approved/processing/completed. -/
def processStep (s : DbState) (tenantId cycleId : Nat) (year month : ℤ)
    (st : PayrollSettings) (cycStatus : String) (acc : LoopAcc)
    (e : Employee) : LoopAcc :=
  match resolveCompensation s tenantId e.id (monthEndDate year month) with
  | none => acc
  | some c =>
    let k := rawComponents c
    let lr := calculateLopAndPaidDays s tenantId e.id month year
    let p := computeSalaryItem k lr st
    if cycStatus ∈ lockedStatuses then acc
    else
      ⟨upsertItem tenantId cycleId e.id p acc.items,
       acc.processedCount + 1, acc.totalGross + p.gross_salary⟩

/-- Loop body of the past-month create path (app.ts:1655-1758): CTC fallback,
no zero-gross skip, no membership or lock check (the cycle was just created). -/
def createStep (s : DbState) (tenantId cycleId : Nat) (year month : ℤ)
    (st : PayrollSettings) (acc : LoopAcc) (e : Employee) : LoopAcc :=
  match resolveCompensation s tenantId e.id (monthEndDate year month) with
  | none => acc
  | some c =>
    let k := fallbackComponents c st
    let lr := calculateLopAndPaidDays s tenantId e.id month year
    let p := computeSalaryItem k lr st
    ⟨upsertItem tenantId cycleId e.id p acc.items,
     acc.processedCount + 1, acc.totalGross + p.gross_salary⟩

/-! ## Endpoint operations -/

inductive ApiErr where
  | cycleNotFound
  | illegalTransition
  | lockedModify
  | noItems
  | duplicateCycle
  | missingFields
  | invalidPercentages
deriving DecidableEq, Repr

/-- Edited replacement items a caller may supply to `process`
(app.ts:2285-2297); only their presence matters on the reachable paths, since
the endpoint requires an approved cycle and approved cycles refuse edits. -/
structure EditedItem where
  employee_id : Nat
  basic_salary : ℚ
  hra : ℚ
  special_allowance : ℚ
  da : ℚ
  lta : ℚ
  bonus : ℚ
  lop_days : Option ℚ
  paid_days : Option ℚ
  total_working_days : Option ℚ
deriving DecidableEq, Repr

def mkDraftCycle (cid tenantId : Nat) (year month : ℤ) : PayrollCycle :=
  ⟨cid, tenantId, year, month, "draft", 0, 0⟩

/-- `POST /payroll-cycles/:cycleId/submit` (app.ts:1999-2061): draft only,
and at least one payroll item must exist. -/
def submitCycle (s : DbState) (tenantId cycleId : Nat) :
    DbState × Except ApiErr Unit :=
  match findCycle s tenantId cycleId with
  | none => (s, .error .cycleNotFound)
  | some cycle =>
    if cycle.status ≠ "draft" then (s, .error .illegalTransition)
    else if (cycleItems s tenantId cycleId).length = 0 then
      (s, .error .noItems)
    else (setCycleStatus s tenantId cycleId "pending_approval", .ok ())

/-- `POST /payroll-cycles/:cycleId/process` (app.ts:2171-2607).  Requires an
approved cycle.  With edited items and existing rows, or with existing rows
and no edits, the cycle is relabelled `processing` with totals recomputed
from the existing rows.  With edited items and no existing rows, the first
loop iteration hits the locked-cycle check (app.ts:2337-2349, status is
approved) and the request aborts before any write.  With no edits and no
existing rows, the fresh loop runs but its locked-cycle check
(app.ts:2531-2534) skips every upsert, leaving zero totals. -/
def processCycle (s : DbState) (tenantId cycleId : Nat)
    (editedItems : List EditedItem) : DbState × Except ApiErr Unit :=
  match findCycle s tenantId cycleId with
  | none => (s, .error .cycleNotFound)
  | some cycle =>
    if cycle.status ≠ "approved" then (s, .error .illegalTransition)
    else
      let st := getSettings s tenantId
      let existing := cycleItems s tenantId cycleId
      if editedItems ≠ [] then
        if existing ≠ [] then
          (setCycleStatusTotals s tenantId cycleId "processing"
            existing.length (sumGross existing), .ok ())
        else (s, .error .lockedModify)
      else
        if existing.length > 0 then
          (setCycleStatusTotals s tenantId cycleId "processing"
            existing.length (sumGross existing), .ok ())
        else
          let emps := eligibleEmployees s tenantId
            (monthEndDate cycle.year cycle.month)
          let r := emps.foldl
            (processStep s tenantId cycleId cycle.year cycle.month st
              cycle.status) ⟨s.items, 0, 0⟩
          (setCycleStatusTotals { s with items := r.items } tenantId cycleId
            "processing" r.processedCount r.totalGross, .ok ())

def isPastMonth (year month nowYear nowMonth : ℤ) : Bool :=
  decide (year < nowYear ∨ (year = nowYear ∧ month < nowMonth))

/-- `POST /payroll-cycles` (app.ts:1586-1779): insert a draft cycle (409 on a
duplicate (tenant, year, month)); cycles for months before the current month
are immediately processed and marked `completed`. -/
def createCycle (s : DbState) (tenantId : Nat) (month year nowYear nowMonth : ℤ) :
    DbState × Except ApiErr Unit :=
  match findCycleByMonth s tenantId year month with
  | some _ => (s, .error .duplicateCycle)
  | none =>
    let cid := s.nextId
    let s1 := { s with
      cycles := s.cycles ++ [mkDraftCycle cid tenantId year month]
      nextId := cid + 1 }
    if !(isPastMonth year month nowYear nowMonth) then (s1, .ok ())
    else
      let st := getSettings s tenantId
      let emps := eligibleEmployees s1 tenantId (monthEndDate year month)
      let r := emps.foldl (createStep s1 tenantId cid year month st)
        ⟨s1.items, 0, 0⟩
      (setCycleStatusTotals { s1 with items := r.items } tenantId cid
        "completed" r.processedCount r.totalGross, .ok ())

/-- The cycle-ensure step of the payslips backfill (app.ts:572-600): insert a
draft cycle for the month unless one exists, and return its id. -/
def ensureCycle (s : DbState) (tenantId : Nat) (year month : ℤ) :
    DbState × Nat :=
  match findCycleByMonth s tenantId year month with
  | some c => (s, c.id)
  | none =>
    ({ s with
       cycles := s.cycles ++ [mkDraftCycle s.nextId tenantId year month]
       nextId := s.nextId + 1 }, s.nextId)

/-- The backfill pass over an already-ensured cycle (app.ts:602-729): upsert
an item for every eligible employee that lacks one (skipping
missing-compensation and zero-gross employees), and mark the cycle
`completed` with totals counting the pre-existing rows. -/
def backfillCore (sE : DbState) (tenantId cid : Nat) (year month : ℤ)
    (st : PayrollSettings) : DbState :=
  let emps := eligibleEmployees sE tenantId (monthEndDate year month)
  let existing := cycleItems sE tenantId cid
  let withItems := existing.map (·.employee_id)
  let r := emps.foldl (backfillStep sE tenantId cid year month st withItems)
    ⟨sE.items, existing.length, sumGross existing⟩
  setCycleStatusTotals { sE with items := r.items } tenantId cid "completed"
    r.processedCount r.totalGross

/-- One iteration of the payslips backfill over a past month
(app.ts:569-735): fetch settings, ensure the cycle, then run the backfill
pass. -/
def backfillMonth (s0 : DbState) (tenantId : Nat) (year month : ℤ) : DbState :=
  backfillCore (ensureCycle s0 tenantId year month).1 tenantId
    (ensureCycle s0 tenantId year month).2 year month
    (getSettings s0 tenantId)

/-- `POST /payroll-settings` request body (app.ts:2642-2650); absent fields
are `none`. -/
structure SettingsInput where
  pf_rate : Option ℚ
  esi_rate : Option ℚ
  pt_rate : Option ℚ
  tds_threshold : Option ℚ
  hra_percentage : Option ℚ
  special_allowance_percentage : Option ℚ
  basic_salary_percentage : Option ℚ
deriving DecidableEq, Repr

/-- `parseFloat(x) || 0` over the three component percentages (app.ts:2658-2660). -/
def pctSum (i : SettingsInput) : ℚ :=
  i.basic_salary_percentage.getD 0 + i.hra_percentage.getD 0 +
    i.special_allowance_percentage.getD 0

def upsertSettingsRow (t : Nat) (row : PayrollSettings) :
    List (Nat × PayrollSettings) → List (Nat × PayrollSettings)
  | [] => [(t, row)]
  | p :: ps => if p.1 == t then (t, row) :: ps else p :: upsertSettingsRow t row ps

/-- `POST /payroll-settings` (app.ts:2635-2706): requires pf_rate and
basic_salary_percentage, rejects component percentages whose sum strays from
100 by more than 0.01, otherwise upserts the per-tenant row (absent numeric
fields are stored as NULL, indistinguishable from 0 to every reader). -/
def saveSettings (s : DbState) (tenantId : Nat) (i : SettingsInput) :
    DbState × Except ApiErr Unit :=
  if i.pf_rate = none ∨ i.basic_salary_percentage = none then
    (s, .error .missingFields)
  else if (1 : ℚ)/100 < |pctSum i - 100| then (s, .error .invalidPercentages)
  else
    let row : PayrollSettings :=
      ⟨i.pf_rate.getD 0, i.esi_rate.getD 0, i.pt_rate.getD 0,
       i.tds_threshold.getD 0, i.basic_salary_percentage.getD 0,
       i.hra_percentage.getD 0, i.special_allowance_percentage.getD 0⟩
    ({ s with settingsRows := upsertSettingsRow tenantId row s.settingsRows },
     .ok ())

/-! ## Database well-formedness (uniqueness and referential invariants the
store's constraints maintain) -/

def wellFormed (s : DbState) : Prop :=
  (s.employees.map (·.id)).Nodup ∧
  (s.cycles.map (·.id)).Nodup ∧
  (∀ c ∈ s.cycles, c.id < s.nextId) ∧
  (∀ r ∈ s.items, ∃ c ∈ s.cycles,
    r.payroll_cycle_id = c.id ∧ r.tenant_id = c.tenant_id)

instance (s : DbState) : Decidable (wellFormed s) := by
  unfold wellFormed; infer_instance

/-- Decidable per-row check of the conservation identities of §8 of the
specification: `deductions = pf + esi + pt + tds` and
`net = gross − deductions`. -/
def itemConservedB (r : ItemRow) : Bool :=
  (r.payload.deductions ==
    r.payload.pf_deduction + r.payload.esi_deduction +
      r.payload.pt_deduction + r.payload.tds_deduction) &&
  (r.payload.net_salary == r.payload.gross_salary - r.payload.deductions)

/-! ## Concrete states used by witnesses and counterexamples -/

/-- A store with no rows at all. -/
def sEmpty : DbState := ⟨[], [], [], [], [], [], [], 1⟩

/-- One tenant, one active employee with a single compensation structure, and
a `completed` cycle for 2024-01 holding no payroll items. -/
def sCompletedCycle : DbState :=
  ⟨[⟨1, 1, "active", none⟩],
   [⟨1, 1, ⟨2023, 12, 1⟩, 0, 3100, 0, 0, 0, 0, 0⟩],
   [], [],
   [⟨1, 1, 2024, 1, "completed", 0, 0⟩],
   [], [], 2⟩

/-- A single `draft` cycle with no payroll items. -/
def sDraftNoItems : DbState :=
  ⟨[], [], [], [], [⟨1, 1, 2025, 5, "draft", 0, 0⟩], [], [], 2⟩

def itemZero : PayItem := ⟨0, 0, 0, 0, 0, 0, 0, 0, 0, 0, 0, 0, 0⟩

/-- A single `draft` cycle with one payroll item. -/
def sDraftOneItem : DbState :=
  ⟨[], [], [], [], [⟨1, 1, 2025, 5, "draft", 0, 0⟩], [⟨1, 1, 1, itemZero⟩],
   [], 2⟩

/-- A single `approved` cycle with one payroll item. -/
def sApprovedOneItem : DbState :=
  ⟨[], [], [], [], [⟨1, 1, 2025, 5, "approved", 0, 0⟩], [⟨1, 1, 1, itemZero⟩],
   [], 2⟩

/-- A single `approved` cycle with no payroll items. -/
def sApprovedNoItems : DbState :=
  ⟨[], [], [], [], [⟨1, 1, 2025, 5, "approved", 0, 0⟩], [], [], 2⟩

/-- A settings request whose component percentages sum to 90. -/
def inputBadPct : SettingsInput :=
  ⟨some 12, some (3.25 : ℚ), some 200, some 250000, some 30, some 10, some 50⟩

/-- A settings request whose component percentages sum to 100. -/
def inputGoodPct : SettingsInput :=
  ⟨some 12, some (3.25 : ℚ), some 200, some 250000, some 40, some 20, some 40⟩

/-! ## Helper lemmas -/

lemma sum_ite_filter {α : Type} (l : List α) (p q : α → Bool) (f : α → ℚ) :
    ((l.filter p).map (fun x => if q x then f x else 0)).sum =
    ((l.filter (fun x => p x && q x)).map f).sum := by
  induction l with
  | nil => rfl
  | cons a t ih =>
    cases hp : p a <;> cases hq : q a <;>
      simp [List.filter_cons, hp, hq, ih]

lemma computeSalaryItem_deductions (k : Components) (lr : LopResult)
    (st : PayrollSettings) :
    (computeSalaryItem k lr st).deductions =
      (computeSalaryItem k lr st).pf_deduction +
      (computeSalaryItem k lr st).esi_deduction +
      (computeSalaryItem k lr st).pt_deduction +
      (computeSalaryItem k lr st).tds_deduction := rfl

lemma computeSalaryItem_net (k : Components) (lr : LopResult)
    (st : PayrollSettings) :
    (computeSalaryItem k lr st).net_salary =
      (computeSalaryItem k lr st).gross_salary -
      (computeSalaryItem k lr st).deductions := rfl

lemma computeSalaryItem_gross (k : Components) (lr : LopResult)
    (st : PayrollSettings) :
    (computeSalaryItem k lr st).gross_salary =
      k.gross / lr.totalWorkingDays * lr.paidDays := rfl

/-- Claim C6: the LOP/paid-days resolver returns lopDays equal to the sum of
`days` over approved loss_of_pay leave requests intersecting the month plus
the count of LOP-flagged attendance records in the month (no deduplication),
totalWorkingDays equal to the number of calendar days in the month, and
paidDays = max(0, totalWorkingDays − lopDays); absent data yields zero. -/
theorem claim_C6 (s : DbState) (t e : Nat) (month year : ℤ) :
    (calculateLopAndPaidDays s t e month year).lopDays =
      ((s.leaves.filter (fun l =>
          l.tenant_id == t && l.employee_id == e && l.status == "approved" &&
          overlapsMonth l year month && l.leave_type == "loss_of_pay")).map
        (fun l => l.days)).sum +
      ((s.attendance.filter (fun a =>
          a.tenant_id == t && a.employee_id == e && a.is_lop &&
          a.attendance_date.y == year && a.attendance_date.m == month)).length : ℚ) ∧
    (calculateLopAndPaidDays s t e month year).totalWorkingDays =
      (daysInMonth year month : ℚ) ∧
    (calculateLopAndPaidDays s t e month year).paidDays =
      max 0 ((daysInMonth year month : ℚ) -
        (calculateLopAndPaidDays s t e month year).lopDays) ∧
    (calculateLopAndPaidDays { s with leaves := [], attendance := [] }
        t e month year).lopDays = 0 ∧
    (calculateLopAndPaidDays { s with leaves := [], attendance := [] }
        t e month year).paidDays = (daysInMonth year month : ℚ) := by
  refine ⟨?_, rfl, rfl, ?_, ?_⟩
  · simp only [calculateLopAndPaidDays]
    rw [sum_ite_filter]
  · simp [calculateLopAndPaidDays]
  · simp [calculateLopAndPaidDays]

/-- Claim C7: for fixed components and fixed positive totalWorkingDays, the
adjusted gross salary of the calculator is non-increasing in lopDays (with
paidDays derived from lopDays by the resolver's flooring formula). -/
theorem claim_C7 (k : Components) (twd lop1 lop2 : ℚ) (st : PayrollSettings)
    (hg : 0 ≤ k.gross) (htwd : 0 < twd) (h12 : lop1 ≤ lop2) :
    (computeSalaryItem k ⟨lop2, max 0 (twd - lop2), twd⟩ st).gross_salary ≤
    (computeSalaryItem k ⟨lop1, max 0 (twd - lop1), twd⟩ st).gross_salary := by
  rw [computeSalaryItem_gross, computeSalaryItem_gross]
  exact mul_le_mul_of_nonneg_left
    (max_le_max le_rfl (by linarith)) (div_nonneg hg htwd.le)

theorem claim_C7_witness :
    (computeSalaryItem ⟨100, 0, 0, 0, 0, 0⟩ ⟨2, max 0 ((30 : ℚ) - 2), 30⟩
        defaultPayrollSettings).gross_salary ≤
    (computeSalaryItem ⟨100, 0, 0, 0, 0, 0⟩ ⟨1, max 0 ((30 : ℚ) - 1), 30⟩
        defaultPayrollSettings).gross_salary :=
  claim_C7 ⟨100, 0, 0, 0, 0, 0⟩ 30 1 2 defaultPayrollSettings
    (by norm_num [Components.gross]) (by norm_num) (by norm_num)

/-- Claim C8: the ESI deduction is `adjustedGross * 0.75 / 100` when the
adjusted gross is at most 21000 and `0` otherwise, ignoring
`settings.esi_rate`; at the boundary an adjusted gross of 21000 yields 157.5
and 21001 yields 0. -/
theorem claim_C8 (k : Components) (lr : LopResult) (st : PayrollSettings)
    (r : ℚ) :
    (computeSalaryItem k lr { st with esi_rate := r }).esi_deduction =
      (computeSalaryItem k lr st).esi_deduction ∧
    (computeSalaryItem k lr st).esi_deduction =
      (if (computeSalaryItem k lr st).gross_salary ≤ 21000 then
        (computeSalaryItem k lr st).gross_salary * 0.75 / 100 else 0) ∧
    (computeSalaryItem ⟨21000, 0, 0, 0, 0, 0⟩ ⟨0, 30, 30⟩ st).gross_salary =
      21000 ∧
    (computeSalaryItem ⟨21000, 0, 0, 0, 0, 0⟩ ⟨0, 30, 30⟩ st).esi_deduction =
      157.5 ∧
    (computeSalaryItem ⟨21001, 0, 0, 0, 0, 0⟩ ⟨0, 30, 30⟩ st).gross_salary =
      21001 ∧
    (computeSalaryItem ⟨21001, 0, 0, 0, 0, 0⟩ ⟨0, 30, 30⟩ st).esi_deduction =
      0 := by
  refine ⟨rfl, rfl, ?_, ?_, ?_, ?_⟩ <;>
    norm_num [computeSalaryItem, Components.gross]

lemma findCycle_setCycleStatusTotals (s : DbState) (t cid : Nat)
    (stt : String) (n : Nat) (a : ℚ) :
    findCycle (setCycleStatusTotals s t cid stt n a) t cid =
      (findCycle s t cid).map (fun c =>
        if c.id == cid && c.tenant_id == t then updateCycleRow stt n a c
        else c) := by
  unfold findCycle setCycleStatusTotals
  rw [List.find?_map]
  have hpf : ((fun c : PayrollCycle => c.id == cid && c.tenant_id == t) ∘
      (fun c => if c.id == cid && c.tenant_id == t then updateCycleRow stt n a c
                else c)) =
      (fun c : PayrollCycle => c.id == cid && c.tenant_id == t) := by
    funext c
    simp only [Function.comp_apply]
    split <;> rfl
  rw [hpf]

lemma findCycle_setCycleStatus (s : DbState) (t cid : Nat) (stt : String) :
    findCycle (setCycleStatus s t cid stt) t cid =
      (findCycle s t cid).map (fun c =>
        if c.id == cid && c.tenant_id == t then { c with status := stt }
        else c) := by
  unfold findCycle setCycleStatus
  rw [List.find?_map]
  have hpf : ((fun c : PayrollCycle => c.id == cid && c.tenant_id == t) ∘
      (fun c : PayrollCycle =>
        if c.id == cid && c.tenant_id == t then { c with status := stt }
        else c)) =
      (fun c : PayrollCycle => c.id == cid && c.tenant_id == t) := by
    funext c
    simp only [Function.comp_apply]
    split <;> rfl
  rw [hpf]

lemma cycleStatus_after_set (s : DbState) (t cid : Nat) (cy : PayrollCycle)
    (hf : findCycle s t cid = some cy) (stt : String) (n : Nat) (a : ℚ) :
    cycleStatus (setCycleStatusTotals s t cid stt n a) t cid = some stt := by
  have hf' : s.cycles.find? (fun c => c.id == cid && c.tenant_id == t) =
      some cy := hf
  have hp : cy.id = cid ∧ cy.tenant_id = t := by
    have h := List.find?_some hf'
    simpa using h
  unfold cycleStatus
  rw [findCycle_setCycleStatusTotals, hf]
  simp [hp.1, hp.2, updateCycleRow]

lemma cycleStatus_after_setStatus (s : DbState) (t cid : Nat)
    (cy : PayrollCycle) (hf : findCycle s t cid = some cy) (stt : String) :
    cycleStatus (setCycleStatus s t cid stt) t cid = some stt := by
  have hf' : s.cycles.find? (fun c => c.id == cid && c.tenant_id == t) =
      some cy := hf
  have hp : cy.id = cid ∧ cy.tenant_id = t := by
    have h := List.find?_some hf'
    simpa using h
  unfold cycleStatus
  rw [findCycle_setCycleStatus, hf]
  simp [hp.1, hp.2]

/-- Claim C2: `process` on a cycle whose status is not `approved` fails with
the illegal-transition error and leaves the store (hence the cycle's status)
unchanged; whenever `process` succeeds the cycle was `approved` and is now
`processing`. -/
theorem claim_C2 (s : DbState) (t cid : Nat) (ed : List EditedItem)
    (cy : PayrollCycle) (hf : findCycle s t cid = some cy) :
    (cy.status ≠ "approved" →
      processCycle s t cid ed = (s, .error .illegalTransition)) ∧
    (∀ s', processCycle s t cid ed = (s', .ok ()) →
      cy.status = "approved" ∧ cycleStatus s' t cid = some "processing") := by
  constructor
  · intro hs
    simp only [processCycle, hf, if_pos hs]
  · intro s' hok
    simp only [processCycle, hf] at hok
    by_cases hs : cy.status ≠ "approved"
    · rw [if_pos hs] at hok
      exact absurd (congrArg Prod.snd hok) (by simp)
    · push_neg at hs
      refine ⟨hs, ?_⟩
      rw [if_neg (by simp [hs])] at hok
      split at hok
      · split at hok
        · rw [Prod.mk.injEq] at hok
          rw [← hok.1]
          exact cycleStatus_after_set s t cid cy hf "processing" _ _
        · exact absurd (congrArg Prod.snd hok).symm (by simp)
      · split at hok
        · rw [Prod.mk.injEq] at hok
          rw [← hok.1]
          exact cycleStatus_after_set s t cid cy hf "processing" _ _
        · rw [Prod.mk.injEq] at hok
          rw [← hok.1]
          exact cycleStatus_after_set _ t cid cy hf "processing" _ _

theorem claim_C2_witness :
    processCycle sDraftNoItems 1 1 [] =
      (sDraftNoItems, Except.error ApiErr.illegalTransition) ∧
    ((⟨1, 1, 2025, 5, "approved", 0, 0⟩ : PayrollCycle).status = "approved" ∧
      cycleStatus (processCycle sApprovedNoItems 1 1 []).1 1 1 =
        some "processing") :=
  ⟨(claim_C2 sDraftNoItems 1 1 [] ⟨1, 1, 2025, 5, "draft", 0, 0⟩ rfl).1
      (by decide),
   (claim_C2 sApprovedNoItems 1 1 [] ⟨1, 1, 2025, 5, "approved", 0, 0⟩ rfl).2
      (processCycle sApprovedNoItems 1 1 []).1 rfl⟩

/-- Claim C4: `submit` succeeds exactly from `draft` with at least one
payroll item; with zero items it fails and leaves the store (hence the
cycle's `draft` status) unchanged, and on success the cycle moves to
`pending_approval`. -/
theorem claim_C4 (s : DbState) (t cid : Nat) (cy : PayrollCycle)
    (hf : findCycle s t cid = some cy) :
    (cy.status = "draft" → (cycleItems s t cid).length = 0 →
      submitCycle s t cid = (s, .error .noItems)) ∧
    (cy.status ≠ "draft" →
      submitCycle s t cid = (s, .error .illegalTransition)) ∧
    (∀ s', submitCycle s t cid = (s', .ok ()) →
      cy.status = "draft" ∧ (cycleItems s t cid).length ≠ 0 ∧
      cycleStatus s' t cid = some "pending_approval") ∧
    (cy.status = "draft" → (cycleItems s t cid).length ≠ 0 →
      submitCycle s t cid =
        (setCycleStatus s t cid "pending_approval", .ok ())) := by
  refine ⟨?_, ?_, ?_, ?_⟩
  · intro hs hz
    simp only [submitCycle, hf]
    rw [if_neg (by simp [hs]), if_pos hz]
  · intro hs
    simp only [submitCycle, hf, if_pos hs]
  · intro s' hok
    simp only [submitCycle, hf] at hok
    by_cases hs : cy.status ≠ "draft"
    · rw [if_pos hs] at hok
      exact absurd (congrArg Prod.snd hok) (by simp)
    · push_neg at hs
      rw [if_neg (by simp [hs])] at hok
      by_cases hz : (cycleItems s t cid).length = 0
      · rw [if_pos hz] at hok
        exact absurd (congrArg Prod.snd hok) (by simp)
      · rw [if_neg hz] at hok
        rw [Prod.mk.injEq] at hok
        exact ⟨hs, hz, by
          rw [← hok.1]
          exact cycleStatus_after_setStatus s t cid cy hf "pending_approval"⟩
  · intro hs hz
    simp only [submitCycle, hf]
    rw [if_neg (by simp [hs]), if_neg hz]

theorem claim_C4_witness :
    submitCycle sDraftNoItems 1 1 = (sDraftNoItems, Except.error ApiErr.noItems) ∧
    submitCycle sDraftOneItem 1 1 =
      (setCycleStatus sDraftOneItem 1 1 "pending_approval", Except.ok ()) :=
  ⟨(claim_C4 sDraftNoItems 1 1 ⟨1, 1, 2025, 5, "draft", 0, 0⟩ rfl).1 rfl
      (by decide),
   (claim_C4 sDraftOneItem 1 1 ⟨1, 1, 2025, 5, "draft", 0, 0⟩ rfl).2.2.2 rfl
      (by decide)⟩

lemma findCycleByMonth_setCycleStatusTotals (s : DbState) (t0 cid : Nat)
    (stt : String) (n : Nat) (a : ℚ) (t : Nat) (y m : ℤ) :
    findCycleByMonth (setCycleStatusTotals s t0 cid stt n a) t y m =
      (findCycleByMonth s t y m).map (fun c =>
        if c.id == cid && c.tenant_id == t0 then updateCycleRow stt n a c
        else c) := by
  unfold findCycleByMonth setCycleStatusTotals
  rw [List.find?_map]
  have hpf : ((fun c : PayrollCycle =>
      c.tenant_id == t && c.year == y && c.month == m) ∘
      (fun c => if c.id == cid && c.tenant_id == t0 then updateCycleRow stt n a c
                else c)) =
      (fun c : PayrollCycle =>
        c.tenant_id == t && c.year == y && c.month == m) := by
    funext c
    simp only [Function.comp_apply]
    split <;> rfl
  rw [hpf]

/-- Claim C9 counterexample: creating a payroll cycle for a month strictly
before the current month succeeds but leaves the created cycle with status
`completed`, not `draft` (the past-month branch auto-processes it). -/
theorem claim_C9_counterexample :
    (createCycle sEmpty 1 1 2024 2025 10).2 = Except.ok () ∧
    cycleStatusByMonth (createCycle sEmpty 1 1 2024 2025 10).1 1 2024 1 =
      some "completed" ∧
    cycleStatusByMonth (createCycle sEmpty 1 1 2024 2025 10).1 1 2024 1 ≠
      some "draft" := by
  refine ⟨rfl, by decide, by decide⟩

lemma cycleStatusByMonth_after_set (s : DbState) (t cid : Nat) (y m : ℤ)
    (cy : PayrollCycle) (hf : findCycleByMonth s t y m = some cy)
    (hid : cy.id = cid) (hten : cy.tenant_id = t) (stt : String) (n : Nat)
    (a : ℚ) :
    cycleStatusByMonth (setCycleStatusTotals s t cid stt n a) t y m =
      some stt := by
  unfold cycleStatusByMonth
  rw [findCycleByMonth_setCycleStatusTotals, hf]
  simp [hid, hten, updateCycleRow]

/-- Claim C9 (amended): after a successful create the cycle's status is
`draft` when the target month is not strictly before the current month, and
`completed` (auto-processed) when it is strictly before. -/
theorem claim_C9_amended (s : DbState) (t : Nat) (month year nowY nowM : ℤ)
    (hnone : findCycleByMonth s t year month = none) :
    ((createCycle s t month year nowY nowM).2 = Except.ok ()) ∧
    (isPastMonth year month nowY nowM = false →
      cycleStatusByMonth (createCycle s t month year nowY nowM).1 t year month =
        some "draft") ∧
    (isPastMonth year month nowY nowM = true →
      cycleStatusByMonth (createCycle s t month year nowY nowM).1 t year month =
        some "completed") := by
  have hfind : ∀ cid : Nat,
      (s.cycles ++ [mkDraftCycle cid t year month]).find? (fun c =>
        c.tenant_id == t && c.year == year && c.month == month) =
      some (mkDraftCycle cid t year month) := by
    intro cid
    rw [List.find?_append]
    have h0 : s.cycles.find? (fun c =>
        c.tenant_id == t && c.year == year && c.month == month) = none := hnone
    rw [h0]
    simp [mkDraftCycle]
  refine ⟨?_, ?_, ?_⟩
  · simp only [createCycle, hnone]
    cases hpast : isPastMonth year month nowY nowM <;> simp [hpast]
  · intro hpast
    simp only [createCycle, hnone, hpast, Bool.not_false, eq_self_iff_true,
      if_true]
    show ((s.cycles ++ [mkDraftCycle s.nextId t year month]).find? (fun c =>
        c.tenant_id == t && c.year == year && c.month == month)).map
        (·.status) = some "draft"
    rw [hfind s.nextId]
    rfl
  · intro hpast
    simp only [createCycle, hnone, hpast, Bool.not_true]
    rw [if_neg (by simp)]
    refine cycleStatusByMonth_after_set _ t s.nextId year month
      (mkDraftCycle s.nextId t year month) ?_ rfl rfl "completed" _ _
    exact hfind s.nextId

theorem claim_C9_witness :
    (createCycle sEmpty 1 5 2025 2025 5).2 = Except.ok () ∧
    cycleStatusByMonth (createCycle sEmpty 1 5 2025 2025 5).1 1 2025 5 =
      some "draft" :=
  ⟨(claim_C9_amended sEmpty 1 5 2025 2025 5 rfl).1,
   (claim_C9_amended sEmpty 1 5 2025 2025 5 rfl).2.1 (by decide)⟩

lemma getSettingsRow_upsert (t : Nat) (row : PayrollSettings) :
    ∀ rows : List (Nat × PayrollSettings),
      ((upsertSettingsRow t row rows).find? (fun p => p.1 == t)).map
        Prod.snd = some row := by
  intro rows
  induction rows with
  | nil => simp [upsertSettingsRow]
  | cons q qs ih =>
    by_cases hq : q.1 = t
    · simp [upsertSettingsRow, hq]
    · rw [upsertSettingsRow]
      rw [if_neg (by simpa using hq)]
      rw [List.find?_cons_of_neg _ (by simpa using hq)]
      exact ih

/-- Claim C10: saving payroll settings is rejected (and the store is left
unchanged) whenever the three component percentages sum more than 0.01 away
from 100; any successfully stored row has component percentages summing to
100 within 0.01. -/
theorem claim_C10 (s : DbState) (t : Nat) (i : SettingsInput) :
    ((1 : ℚ)/100 < |pctSum i - 100| →
      (saveSettings s t i).1 = s ∧ (saveSettings s t i).2 ≠ .ok ()) ∧
    (∀ s', saveSettings s t i = (s', .ok ()) →
      ∃ row, getSettingsRow s' t = some row ∧
        |row.basic_salary_percentage + row.hra_percentage +
          row.special_allowance_percentage - 100| ≤ 1/100) := by
  constructor
  · intro hbad
    by_cases hm : i.pf_rate = none ∨ i.basic_salary_percentage = none
    · simp only [saveSettings, if_pos hm]
      simp
    · simp only [saveSettings, if_neg hm, if_pos hbad]
      simp
  · intro s' hok
    by_cases hm : i.pf_rate = none ∨ i.basic_salary_percentage = none
    · rw [saveSettings, if_pos hm] at hok
      exact absurd (congrArg Prod.snd hok) (by simp)
    · by_cases hbad : (1 : ℚ)/100 < |pctSum i - 100|
      · rw [saveSettings, if_neg hm, if_pos hbad] at hok
        exact absurd (congrArg Prod.snd hok) (by simp)
      · rw [saveSettings, if_neg hm, if_neg hbad] at hok
        rw [Prod.mk.injEq] at hok
        refine ⟨⟨i.pf_rate.getD 0, i.esi_rate.getD 0, i.pt_rate.getD 0,
          i.tds_threshold.getD 0, i.basic_salary_percentage.getD 0,
          i.hra_percentage.getD 0, i.special_allowance_percentage.getD 0⟩,
          ?_, ?_⟩
        · rw [← hok.1]
          exact getSettingsRow_upsert t _ s.settingsRows
        · simpa [pctSum] using not_lt.mp hbad

theorem claim_C10_witness :
    ((saveSettings sEmpty 1 inputBadPct).1 = sEmpty ∧
      (saveSettings sEmpty 1 inputBadPct).2 ≠ Except.ok ()) ∧
    (∃ row, getSettingsRow (saveSettings sEmpty 1 inputGoodPct).1 1 =
        some row ∧
      |row.basic_salary_percentage + row.hra_percentage +
        row.special_allowance_percentage - 100| ≤ 1/100) := by
  constructor
  · exact (claim_C10 sEmpty 1 inputBadPct).1
      (by norm_num [pctSum, inputBadPct])
  · have h2 : (saveSettings sEmpty 1 inputGoodPct).2 = Except.ok () := by
      rw [saveSettings, if_neg (by simp [inputGoodPct]),
        if_neg (by norm_num [pctSum, inputGoodPct])]
    have hok : saveSettings sEmpty 1 inputGoodPct =
        ((saveSettings sEmpty 1 inputGoodPct).1, Except.ok ()) := by
      rw [← h2]
    exact (claim_C10 sEmpty 1 inputGoodPct).2
      (saveSettings sEmpty 1 inputGoodPct).1 hok

/-! ## Lemmas about the per-employee loops -/

lemma upsertItem_mem (t cid eid : Nat) (p : PayItem) :
    ∀ l : List ItemRow, ∀ r ∈ upsertItem t cid eid p l,
      r ∈ l ∨ r.payload = p := by
  intro l
  induction l with
  | nil =>
    intro r hr
    rw [upsertItem] at hr
    right
    rw [List.mem_singleton.mp hr]
  | cons a as ih =>
    intro r hr
    rw [upsertItem] at hr
    split at hr
    · rcases List.mem_cons.mp hr with h | h
      · right; rw [h]
      · left; exact List.mem_cons_of_mem _ h
    · rcases List.mem_cons.mp hr with h | h
      · left; rw [h]; exact List.mem_cons_self _ _
      · rcases ih r h with h2 | h2
        · left; exact List.mem_cons_of_mem _ h2
        · right; exact h2

lemma upsertItem_fresh (t cid eid : Nat) (p : PayItem) :
    ∀ l : List ItemRow,
      (∀ r ∈ l, ¬(r.payroll_cycle_id = cid ∧ r.employee_id = eid)) →
      upsertItem t cid eid p l = l ++ [⟨t, cid, eid, p⟩] := by
  intro l
  induction l with
  | nil => intro _; rfl
  | cons a as ih =>
    intro h
    rw [upsertItem,
      if_neg (by simpa using h a (List.mem_cons_self a as)),
      List.cons_append]
    rw [ih (fun r hr => h r (List.mem_cons_of_mem _ hr))]

lemma foldl_fixed_of_mem {α β : Type} (f : α → β → α) :
    ∀ l : List β, (∀ b ∈ l, ∀ a, f a b = a) → ∀ a, l.foldl f a = a := by
  intro l
  induction l with
  | nil => intro _ a; rfl
  | cons b bs ih =>
    intro h a
    rw [List.foldl_cons, h b (List.mem_cons_self b bs) a]
    exact ih (fun x hx => h x (List.mem_cons_of_mem _ hx)) a

lemma backfillStep_mem_skip (s : DbState) (t cid : Nat) (y m : ℤ)
    (st : PayrollSettings) (wi : List Nat) (acc : LoopAcc) (e : Employee)
    (hw : e.id ∈ wi) : backfillStep s t cid y m st wi acc e = acc := by
  simp [backfillStep, hw]

lemma backfillStep_none_skip (s : DbState) (t cid : Nat) (y m : ℤ)
    (st : PayrollSettings) (wi : List Nat) (acc : LoopAcc) (e : Employee)
    (hc : resolveCompensation s t e.id (monthEndDate y m) = none) :
    backfillStep s t cid y m st wi acc e = acc := by
  by_cases hw : e.id ∈ wi <;> simp [backfillStep, hw, hc]

lemma backfillStep_zero_skip (s : DbState) (t cid : Nat) (y m : ℤ)
    (st : PayrollSettings) (wi : List Nat) (acc : LoopAcc) (e : Employee)
    (c : CompensationStructure)
    (hc : resolveCompensation s t e.id (monthEndDate y m) = some c)
    (hz : (fallbackComponents c st).gross = 0) :
    backfillStep s t cid y m st wi acc e = acc := by
  by_cases hw : e.id ∈ wi <;> simp [backfillStep, hw, hc, hz]

lemma backfillStep_insert (s : DbState) (t cid : Nat) (y m : ℤ)
    (st : PayrollSettings) (wi : List Nat) (acc : LoopAcc) (e : Employee)
    (c : CompensationStructure) (hw : e.id ∉ wi)
    (hc : resolveCompensation s t e.id (monthEndDate y m) = some c)
    (hz : ¬ (fallbackComponents c st).gross = 0) :
    backfillStep s t cid y m st wi acc e =
      ⟨upsertItem t cid e.id
         (computeSalaryItem (fallbackComponents c st)
           (calculateLopAndPaidDays s t e.id m y) st) acc.items,
       acc.processedCount + 1,
       acc.totalGross +
         (computeSalaryItem (fallbackComponents c st)
           (calculateLopAndPaidDays s t e.id m y) st).gross_salary⟩ := by
  simp [backfillStep, hw, hc, hz]

lemma processStep_locked (s : DbState) (t cid : Nat) (y m : ℤ)
    (st : PayrollSettings) (cst : String) (hlock : cst ∈ lockedStatuses)
    (acc : LoopAcc) (e : Employee) :
    processStep s t cid y m st cst acc e = acc := by
  cases hc : resolveCompensation s t e.id (monthEndDate y m) with
  | none => simp [processStep, hc]
  | some c => simp [processStep, hc, hlock]

lemma foldl_items_mem {β : Type} (step : LoopAcc → β → LoopAcc)
    (P : ItemRow → Prop)
    (hstep : ∀ acc b, ∀ r ∈ (step acc b).items, r ∈ acc.items ∨ P r) :
    ∀ (l : List β) (acc : LoopAcc),
      ∀ r ∈ (l.foldl step acc).items, r ∈ acc.items ∨ P r := by
  intro l
  induction l with
  | nil => intro acc r hr; exact Or.inl hr
  | cons b bs ih =>
    intro acc r hr
    rw [List.foldl_cons] at hr
    rcases ih (step acc b) r hr with h | h
    · exact hstep acc b r h
    · exact Or.inr h

lemma backfillStep_items_mem (s : DbState) (t cid : Nat) (y m : ℤ)
    (st : PayrollSettings) (wi : List Nat) (acc : LoopAcc) (e : Employee) :
    ∀ r ∈ (backfillStep s t cid y m st wi acc e).items,
      r ∈ acc.items ∨ ∃ k lr, r.payload = computeSalaryItem k lr st := by
  intro r hr
  by_cases hw : e.id ∈ wi
  · rw [backfillStep_mem_skip s t cid y m st wi acc e hw] at hr
    exact Or.inl hr
  · cases hc : resolveCompensation s t e.id (monthEndDate y m) with
    | none =>
      rw [backfillStep_none_skip s t cid y m st wi acc e hc] at hr
      exact Or.inl hr
    | some c =>
      by_cases hz : (fallbackComponents c st).gross = 0
      · rw [backfillStep_zero_skip s t cid y m st wi acc e c hc hz] at hr
        exact Or.inl hr
      · rw [backfillStep_insert s t cid y m st wi acc e c hw hc hz] at hr
        rcases upsertItem_mem _ _ _ _ _ r hr with h | h
        · exact Or.inl h
        · exact Or.inr ⟨_, _, h⟩

lemma createStep_items_mem (s : DbState) (t cid : Nat) (y m : ℤ)
    (st : PayrollSettings) (acc : LoopAcc) (e : Employee) :
    ∀ r ∈ (createStep s t cid y m st acc e).items,
      r ∈ acc.items ∨ ∃ k lr, r.payload = computeSalaryItem k lr st := by
  intro r hr
  cases hc : resolveCompensation s t e.id (monthEndDate y m) with
  | none =>
    simp only [createStep, hc] at hr
    exact Or.inl hr
  | some c =>
    simp only [createStep, hc] at hr
    rcases upsertItem_mem _ _ _ _ _ r hr with h | h
    · exact Or.inl h
    · exact Or.inr ⟨_, _, h⟩

/-- `process` never inserts or modifies a payroll item: every branch either
aborts before writing, relabels only the cycle row, or runs the fresh loop
whose locked-cycle check skips every upsert (the cycle is necessarily
`approved` there). -/
lemma processCycle_items (s : DbState) (t cid : Nat) (ed : List EditedItem) :
    ((processCycle s t cid ed).1).items = s.items := by
  cases hf : findCycle s t cid with
  | none => simp [processCycle, hf]
  | some cy =>
    simp only [processCycle, hf]
    by_cases hs : cy.status ≠ "approved"
    · rw [if_pos hs]
    · push_neg at hs
      rw [if_neg (by simp [hs])]
      have hrun : (eligibleEmployees s t
          (monthEndDate cy.year cy.month)).foldl
          (processStep s t cid cy.year cy.month (getSettings s t) cy.status)
          ⟨s.items, 0, 0⟩ = ⟨s.items, 0, 0⟩ :=
        foldl_fixed_of_mem _ _
          (fun e _ acc =>
            processStep_locked s t cid cy.year cy.month _ cy.status
              (by rw [hs]; simp [lockedStatuses]) acc e) _
      split
      · split <;> rfl
      · split
        · rfl
        · rw [hrun]; rfl

/-- Claim C3 counterexample: the payslips backfill inserts a new PayrollItem
row into a cycle whose status is `completed` (an employee of the cycle's
month has compensation but no item), so locked cycles are not immune to item
inserts by every operation. -/
theorem claim_C3_counterexample :
    cycleStatusByMonth sCompletedCycle 1 2024 1 = some "completed" ∧
    sCompletedCycle.items.length = 0 ∧
    (backfillMonth sCompletedCycle 1 2024 1).items.length = 1 ∧
    (backfillMonth sCompletedCycle 1 2024 1).items.map (·.payroll_cycle_id) =
      [1] := by
  refine ⟨by decide, rfl, ?_, ?_⟩ <;>
    norm_num [backfillMonth, backfillCore, ensureCycle, findCycleByMonth, getSettings,
      getSettingsRow, defaultPayrollSettings, eligibleEmployees, cycleItems,
      sumGross, backfillStep, resolveCompensation, fallbackComponents,
      rawComponents, Components.gross, monthEndDate, daysInMonth, isLeapYear,
      dateLe, dateLt, calculateLopAndPaidDays, computeSalaryItem, numOr,
      upsertItem, setCycleStatusTotals, sCompletedCycle, List.find?,
      List.filter, List.foldl]

lemma sumGross_cons (r : ItemRow) (l : List ItemRow) :
    sumGross (r :: l) = r.payload.gross_salary + sumGross l := by
  simp [sumGross]

lemma sumGross_append (l1 l2 : List ItemRow) :
    sumGross (l1 ++ l2) = sumGross l1 + sumGross l2 := by
  simp [sumGross]

/-- Full characterisation of the backfill loop: starting from an items table
whose rows for the target cycle all belong to the skip set (or to employees
outside the remaining list), the loop appends one freshly computed row per
inserted employee, counts and sums exactly those rows on top of the initial
accumulator, and every employee is either skipped (already has an item, has
no compensation, or has zero gross) or has a row among the appended ones. -/
lemma backfillLoop_spec (s : DbState) (t cid : Nat) (y m : ℤ)
    (st : PayrollSettings) (wi : List Nat) :
    ∀ (emps : List Employee) (acc : LoopAcc),
      (∀ r ∈ acc.items, r.payroll_cycle_id = cid →
        r.employee_id ∈ wi ∨ r.employee_id ∉ emps.map (·.id)) →
      (emps.map (·.id)).Nodup →
      ∃ new : List ItemRow,
        emps.foldl (backfillStep s t cid y m st wi) acc =
          ⟨acc.items ++ new, acc.processedCount + new.length,
           acc.totalGross + sumGross new⟩ ∧
        (∀ r ∈ new, r.payroll_cycle_id = cid ∧ r.tenant_id = t ∧
          r.employee_id ∉ wi) ∧
        (∀ e ∈ emps, e.id ∈ wi ∨
          resolveCompensation s t e.id (monthEndDate y m) = none ∨
          (∃ c, resolveCompensation s t e.id (monthEndDate y m) = some c ∧
            (fallbackComponents c st).gross = 0) ∨
          (∃ r ∈ new, r.employee_id = e.id)) := by
  intro emps
  induction emps with
  | nil =>
    intro acc _ _
    refine ⟨[], ?_, by simp, by simp⟩
    cases acc
    simp [sumGross]
  | cons e es ih =>
    intro acc hbase hnd
    rw [List.map_cons, List.nodup_cons] at hnd
    have hbase' : ∀ r ∈ acc.items, r.payroll_cycle_id = cid →
        r.employee_id ∈ wi ∨ r.employee_id ∉ es.map (·.id) := by
      intro r hr hcid
      rcases hbase r hr hcid with h | h
      · exact Or.inl h
      · right
        intro hmem
        exact h (by rw [List.map_cons]; exact List.mem_cons_of_mem _ hmem)
    rw [List.foldl_cons]
    by_cases hw : e.id ∈ wi
    · rw [backfillStep_mem_skip s t cid y m st wi acc e hw]
      obtain ⟨new, h1, h2, h3⟩ := ih acc hbase' hnd.2
      refine ⟨new, h1, h2, fun e' he' => ?_⟩
      rcases List.mem_cons.mp he' with rfl | hmem
      · exact Or.inl hw
      · exact h3 e' hmem
    · cases hc : resolveCompensation s t e.id (monthEndDate y m) with
      | none =>
        rw [backfillStep_none_skip s t cid y m st wi acc e hc]
        obtain ⟨new, h1, h2, h3⟩ := ih acc hbase' hnd.2
        refine ⟨new, h1, h2, fun e' he' => ?_⟩
        rcases List.mem_cons.mp he' with rfl | hmem
        · exact Or.inr (Or.inl hc)
        · exact h3 e' hmem
      | some c =>
        by_cases hz : (fallbackComponents c st).gross = 0
        · rw [backfillStep_zero_skip s t cid y m st wi acc e c hc hz]
          obtain ⟨new, h1, h2, h3⟩ := ih acc hbase' hnd.2
          refine ⟨new, h1, h2, fun e' he' => ?_⟩
          rcases List.mem_cons.mp he' with rfl | hmem
          · exact Or.inr (Or.inr (Or.inl ⟨c, hc, hz⟩))
          · exact h3 e' hmem
        · rw [backfillStep_insert s t cid y m st wi acc e c hw hc hz]
          have hfresh : ∀ r ∈ acc.items,
              ¬(r.payroll_cycle_id = cid ∧ r.employee_id = e.id) := by
            intro r hr hk
            rcases hbase r hr hk.1 with h | h
            · exact hw (hk.2 ▸ h)
            · exact h (hk.2 ▸ (by
                rw [List.map_cons]; exact List.mem_cons_self _ _))
          rw [upsertItem_fresh t cid e.id _ acc.items hfresh]
          obtain ⟨new, h1, h2, h3⟩ := ih
            ⟨acc.items ++ [⟨t, cid, e.id,
                computeSalaryItem (fallbackComponents c st)
                  (calculateLopAndPaidDays s t e.id m y) st⟩],
             acc.processedCount + 1,
             acc.totalGross +
               (computeSalaryItem (fallbackComponents c st)
                 (calculateLopAndPaidDays s t e.id m y) st).gross_salary⟩
            (by
              intro r hr hcid
              rcases List.mem_append.mp hr with h | h
              · exact hbase' r h hcid
              · right
                rw [List.mem_singleton.mp h]
                exact hnd.1)
            hnd.2
          refine ⟨⟨t, cid, e.id,
              computeSalaryItem (fallbackComponents c st)
                (calculateLopAndPaidDays s t e.id m y) st⟩ :: new,
            ?_, ?_, ?_⟩
          · rw [h1]
            simp only [LoopAcc.mk.injEq]
            refine ⟨?_, by rw [List.length_cons]; omega, ?_⟩
            · rw [List.append_assoc, List.singleton_append]
            · rw [sumGross_cons, add_assoc]
          · intro r hr
            rcases List.mem_cons.mp hr with rfl | hmem
            · exact ⟨rfl, rfl, hw⟩
            · exact h2 r hmem
          · intro e' he'
            rcases List.mem_cons.mp he' with rfl | hmem
            · exact Or.inr (Or.inr (Or.inr
                ⟨_, List.mem_cons_self _ _, rfl⟩))
            · rcases h3 e' hmem with h | h | h | ⟨r, hrmem, hre⟩
              · exact Or.inl h
              · exact Or.inr (Or.inl h)
              · exact Or.inr (Or.inr (Or.inl h))
              · exact Or.inr (Or.inr (Or.inr
                  ⟨r, List.mem_cons_of_mem _ hrmem, hre⟩))

lemma ensureCycle_found (s : DbState) (t : Nat) (y m : ℤ) (c : PayrollCycle)
    (h : findCycleByMonth s t y m = some c) :
    ensureCycle s t y m = (s, c.id) := by
  simp [ensureCycle, h]

lemma ensureCycle_created (s : DbState) (t : Nat) (y m : ℤ)
    (h : findCycleByMonth s t y m = none) :
    ensureCycle s t y m =
      ({ s with
         cycles := s.cycles ++ [mkDraftCycle s.nextId t y m]
         nextId := s.nextId + 1 }, s.nextId) := by
  simp [ensureCycle, h]

lemma items_employee_in_withItems (s : DbState) (hwf : wellFormed s)
    (t : Nat) (y m : ℤ) (c : PayrollCycle)
    (hc : findCycleByMonth s t y m = some c) :
    ∀ r ∈ s.items, r.payroll_cycle_id = c.id →
      r.employee_id ∈ (cycleItems s t c.id).map (·.employee_id) := by
  intro r hr hcid
  obtain ⟨c', hc'mem, hid, hten⟩ := hwf.2.2.2 r hr
  have hcmem : c ∈ s.cycles := List.mem_of_find?_eq_some hc
  have hc2 : s.cycles.find? (fun c =>
      c.tenant_id == t && c.year == y && c.month == m) = some c := hc
  have hcten : c.tenant_id = t := by
    have h := List.find?_some hc2
    simp at h
    exact h.1.1
  have hcc : c' = c :=
    List.inj_on_of_nodup_map hwf.2.1 hc'mem hcmem (by rw [← hid, hcid])
  have hrt : r.tenant_id = t := by rw [hten, hcc, hcten]
  refine List.mem_map.mpr ⟨r, ?_, rfl⟩
  unfold cycleItems
  exact List.mem_filter.mpr ⟨hr, by simp [hcid, hrt]⟩

lemma items_cycle_lt_nextId (s : DbState) (hwf : wellFormed s) :
    ∀ r ∈ s.items, r.payroll_cycle_id ≠ s.nextId := by
  intro r hr
  obtain ⟨c', hc'mem, hid, _⟩ := hwf.2.2.2 r hr
  have hlt := hwf.2.2.1 c' hc'mem
  rw [hid]
  omega

lemma eligibleEmployees_nodup (s : DbState)
    (h : (s.employees.map (·.id)).Nodup) (t : Nat) (me : Date) :
    ((eligibleEmployees s t me).map (·.id)).Nodup :=
  List.Nodup.sublist
    (List.Sublist.map (·.id) (List.filter_sublist s.employees)) h

lemma backfillLoop_id (s : DbState) (t cid : Nat) (y m : ℤ)
    (st : PayrollSettings) (wi : List Nat) (emps : List Employee)
    (h : ∀ e ∈ emps, e.id ∈ wi ∨
      resolveCompensation s t e.id (monthEndDate y m) = none ∨
      (∃ c, resolveCompensation s t e.id (monthEndDate y m) = some c ∧
        (fallbackComponents c st).gross = 0)) (acc : LoopAcc) :
    emps.foldl (backfillStep s t cid y m st wi) acc = acc := by
  apply foldl_fixed_of_mem
  intro e he acc'
  rcases h e he with hw | hc | ⟨c, hc, hz⟩
  · exact backfillStep_mem_skip s t cid y m st wi acc' e hw
  · exact backfillStep_none_skip s t cid y m st wi acc' e hc
  · exact backfillStep_zero_skip s t cid y m st wi acc' e c hc hz

lemma backfillCore_spec (sE : DbState) (t cid : Nat) (y m : ℤ)
    (st : PayrollSettings)
    (hnd : ((eligibleEmployees sE t (monthEndDate y m)).map (·.id)).Nodup)
    (hbase : ∀ r ∈ sE.items, r.payroll_cycle_id = cid →
      r.employee_id ∈ (cycleItems sE t cid).map (·.employee_id)) :
    ∃ new : List ItemRow,
      backfillCore sE t cid y m st =
        setCycleStatusTotals { sE with items := sE.items ++ new } t cid
          "completed" ((cycleItems sE t cid).length + new.length)
          (sumGross (cycleItems sE t cid) + sumGross new) ∧
      (∀ r ∈ new, r.payroll_cycle_id = cid ∧ r.tenant_id = t ∧
        r.employee_id ∉ (cycleItems sE t cid).map (·.employee_id)) ∧
      (∀ e ∈ eligibleEmployees sE t (monthEndDate y m),
        e.id ∈ (cycleItems sE t cid).map (·.employee_id) ∨
        resolveCompensation sE t e.id (monthEndDate y m) = none ∨
        (∃ c, resolveCompensation sE t e.id (monthEndDate y m) = some c ∧
          (fallbackComponents c st).gross = 0) ∨
        (∃ r ∈ new, r.employee_id = e.id)) := by
  obtain ⟨new, h1, h2, h3⟩ := backfillLoop_spec sE t cid y m st
    ((cycleItems sE t cid).map (·.employee_id))
    (eligibleEmployees sE t (monthEndDate y m))
    ⟨sE.items, (cycleItems sE t cid).length, sumGross (cycleItems sE t cid)⟩
    (fun r hr hcid => Or.inl (hbase r hr hcid))
    hnd
  refine ⟨new, ?_, h2, h3⟩
  simp only [backfillCore]
  rw [h1]

lemma backfillCore_id (sE : DbState) (t cid : Nat) (y m : ℤ)
    (st : PayrollSettings)
    (hskip : ∀ e ∈ eligibleEmployees sE t (monthEndDate y m),
      e.id ∈ (cycleItems sE t cid).map (·.employee_id) ∨
      resolveCompensation sE t e.id (monthEndDate y m) = none ∨
      (∃ c, resolveCompensation sE t e.id (monthEndDate y m) = some c ∧
        (fallbackComponents c st).gross = 0)) :
    backfillCore sE t cid y m st =
      setCycleStatusTotals sE t cid "completed"
        (cycleItems sE t cid).length (sumGross (cycleItems sE t cid)) := by
  simp only [backfillCore]
  rw [backfillLoop_id sE t cid y m st _ _ hskip]

lemma setCycleStatusTotals_cycles_idem (s1 s2 : DbState) (t cid : Nat)
    (stt : String) (n : Nat) (a : ℚ)
    (h : s2.cycles = (setCycleStatusTotals s1 t cid stt n a).cycles) :
    (setCycleStatusTotals s2 t cid stt n a).cycles = s2.cycles := by
  show s2.cycles.map (fun c =>
    if c.id == cid && c.tenant_id == t then updateCycleRow stt n a c else c) =
    s2.cycles
  rw [h]
  show (s1.cycles.map (fun c =>
      if c.id == cid && c.tenant_id == t then updateCycleRow stt n a c
      else c)).map (fun c =>
      if c.id == cid && c.tenant_id == t then updateCycleRow stt n a c
      else c) =
    s1.cycles.map (fun c =>
      if c.id == cid && c.tenant_id == t then updateCycleRow stt n a c
      else c)
  rw [List.map_map]
  apply List.map_congr_left
  intro c _
  by_cases hp : (c.id == cid && c.tenant_id == t) = true
  · simp [Function.comp, hp, updateCycleRow]
  · simp [Function.comp, hp]

lemma resolveCompensation_congr (s s' : DbState) (h : s'.comps = s.comps)
    (t e : Nat) (a : Date) :
    resolveCompensation s' t e a = resolveCompensation s t e a := by
  unfold resolveCompensation
  rw [h]

lemma eligibleEmployees_congr (s s' : DbState)
    (h : s'.employees = s.employees) (t : Nat) (me : Date) :
    eligibleEmployees s' t me = eligibleEmployees s t me := by
  unfold eligibleEmployees
  rw [h]

lemma getSettings_congr (s s' : DbState)
    (h : s'.settingsRows = s.settingsRows) (t : Nat) :
    getSettings s' t = getSettings s t := by
  unfold getSettings getSettingsRow
  rw [h]

/-- Running the backfill pass a second time over the state left by a first
run (cycle `completed` with recomputed totals, items extended by the freshly
inserted rows) changes neither the items table nor the cycles table: every
eligible employee now either has an item or is skipped for the same
compensation reason as before, and the recomputed totals coincide. -/
lemma backfill_second_run (s S1 : DbState) (t : Nat) (y m : ℤ)
    (c : PayrollCycle)
    (hfind : findCycleByMonth s t y m = some c)
    (hct : c.tenant_id = t)
    (new : List ItemRow)
    (hS1 : S1 = setCycleStatusTotals { s with items := s.items ++ new } t c.id
      "completed" ((cycleItems s t c.id).length + new.length)
      (sumGross (cycleItems s t c.id) + sumGross new))
    (h2 : ∀ r ∈ new, r.payroll_cycle_id = c.id ∧ r.tenant_id = t ∧
      r.employee_id ∉ (cycleItems s t c.id).map (·.employee_id))
    (h3 : ∀ e ∈ eligibleEmployees s t (monthEndDate y m),
      e.id ∈ (cycleItems s t c.id).map (·.employee_id) ∨
      resolveCompensation s t e.id (monthEndDate y m) = none ∨
      (∃ cc, resolveCompensation s t e.id (monthEndDate y m) = some cc ∧
        (fallbackComponents cc (getSettings s t)).gross = 0) ∨
      (∃ r ∈ new, r.employee_id = e.id)) :
    (backfillMonth S1 t y m).items = S1.items ∧
    (backfillMonth S1 t y m).cycles = S1.cycles := by
  have hemp : S1.employees = s.employees := by rw [hS1]; exact rfl
  have hcomps : S1.comps = s.comps := by rw [hS1]; exact rfl
  have hsett : S1.settingsRows = s.settingsRows := by rw [hS1]; exact rfl
  have hitems1 : S1.items = s.items ++ new := by rw [hS1]; exact rfl
  have hst : getSettings S1 t = getSettings s t :=
    getSettings_congr s S1 hsett t
  have helig : eligibleEmployees S1 t (monthEndDate y m) =
      eligibleEmployees s t (monthEndDate y m) :=
    eligibleEmployees_congr s S1 hemp t _
  have hres : ∀ (e : Nat) (a : Date),
      resolveCompensation S1 t e a = resolveCompensation s t e a :=
    fun e a => resolveCompensation_congr s S1 hcomps t e a
  have hcycNew : cycleItems S1 t c.id = cycleItems s t c.id ++ new := by
    unfold cycleItems
    rw [hitems1, List.filter_append]
    congr 1
    exact List.filter_eq_self.mpr (fun r hr => by
      simp [(h2 r hr).1, (h2 r hr).2.1])
  have hfind2 : findCycleByMonth S1 t y m =
      some (updateCycleRow "completed"
        ((cycleItems s t c.id).length + new.length)
        (sumGross (cycleItems s t c.id) + sumGross new) c) := by
    rw [hS1, findCycleByMonth_setCycleStatusTotals]
    rw [show findCycleByMonth { s with items := s.items ++ new } t y m =
      some c from hfind]
    simp [hct]
  have hens2 : ensureCycle S1 t y m = (S1, c.id) :=
    ensureCycle_found S1 t y m
      (updateCycleRow "completed" ((cycleItems s t c.id).length + new.length)
        (sumGross (cycleItems s t c.id) + sumGross new) c) hfind2
  have hskip2 : ∀ e ∈ eligibleEmployees S1 t (monthEndDate y m),
      e.id ∈ (cycleItems S1 t c.id).map (·.employee_id) ∨
      resolveCompensation S1 t e.id (monthEndDate y m) = none ∨
      (∃ cc, resolveCompensation S1 t e.id (monthEndDate y m) = some cc ∧
        (fallbackComponents cc (getSettings S1 t)).gross = 0) := by
    intro e he
    rw [helig] at he
    rcases h3 e he with hw | hcn | ⟨cc, hcc, hz⟩ | ⟨r, hrmem, hre⟩
    · left
      rw [hcycNew, List.map_append]
      exact List.mem_append_left _ hw
    · right; left
      rw [hres]
      exact hcn
    · right; right
      exact ⟨cc, by rw [hres]; exact hcc, by rw [hst]; exact hz⟩
    · left
      rw [hcycNew, List.map_append]
      exact List.mem_append_right _ (List.mem_map.mpr ⟨r, hrmem, hre⟩)
  have hbm2 : backfillMonth S1 t y m =
      setCycleStatusTotals S1 t c.id "completed"
        (cycleItems S1 t c.id).length (sumGross (cycleItems S1 t c.id)) := by
    rw [backfillMonth, hens2]
    exact backfillCore_id S1 t c.id y m (getSettings S1 t) hskip2
  constructor
  · rw [hbm2]
    exact rfl
  · rw [hbm2]
    have hn : (cycleItems S1 t c.id).length =
        (cycleItems s t c.id).length + new.length := by
      rw [hcycNew, List.length_append]
    have hg : sumGross (cycleItems S1 t c.id) =
        sumGross (cycleItems s t c.id) + sumGross new := by
      rw [hcycNew, sumGross_append]
    rw [hn, hg]
    exact setCycleStatusTotals_cycles_idem
      { s with items := s.items ++ new } S1 t c.id "completed" _ _
      (by rw [hS1])

/-- Claim C5: running the backfill pass (the per-employee compute-and-upsert
orchestrator) a second time for the same month over an unchanged store
yields exactly the same PayrollItem rows and the same cycle row (hence the
same total_employees and total_amount) as the first run. -/
theorem claim_C5 (s : DbState) (t : Nat) (y m : ℤ) (hwf : wellFormed s) :
    (backfillMonth (backfillMonth s t y m) t y m).items =
      (backfillMonth s t y m).items ∧
    (backfillMonth (backfillMonth s t y m) t y m).cycles =
      (backfillMonth s t y m).cycles := by
  cases hfind : findCycleByMonth s t y m with
  | some c =>
    have hens : ensureCycle s t y m = (s, c.id) :=
      ensureCycle_found s t y m c hfind
    have hct : c.tenant_id = t := by
      have h := List.find?_some (show s.cycles.find? (fun c =>
        c.tenant_id == t && c.year == y && c.month == m) = some c from hfind)
      simp at h
      exact h.1.1
    have hnd : ((eligibleEmployees s t (monthEndDate y m)).map (·.id)).Nodup :=
      eligibleEmployees_nodup s hwf.1 t _
    have hbase := items_employee_in_withItems s hwf t y m c hfind
    obtain ⟨new, h1, h2, h3⟩ :=
      backfillCore_spec s t c.id y m (getSettings s t) hnd hbase
    have hbm1 : backfillMonth s t y m =
        setCycleStatusTotals { s with items := s.items ++ new } t c.id
          "completed" ((cycleItems s t c.id).length + new.length)
          (sumGross (cycleItems s t c.id) + sumGross new) := by
      rw [backfillMonth, hens]
      exact h1
    exact backfill_second_run s (backfillMonth s t y m) t y m c hfind hct new
      (by rw [hbm1]) h2 h3
  | none =>
    have hens := ensureCycle_created s t y m hfind
    have hnd : ((eligibleEmployees
        { s with
          cycles := s.cycles ++ [mkDraftCycle s.nextId t y m]
          nextId := s.nextId + 1 } t (monthEndDate y m)).map (·.id)).Nodup :=
      eligibleEmployees_nodup _ hwf.1 t _
    have hbase : ∀ r ∈ ({ s with
        cycles := s.cycles ++ [mkDraftCycle s.nextId t y m]
        nextId := s.nextId + 1 } : DbState).items,
        r.payroll_cycle_id = s.nextId →
        r.employee_id ∈ (cycleItems { s with
          cycles := s.cycles ++ [mkDraftCycle s.nextId t y m]
          nextId := s.nextId + 1 } t s.nextId).map (·.employee_id) := by
      intro r hr hcid
      exact absurd hcid (items_cycle_lt_nextId s hwf r hr)
    obtain ⟨new, h1, h2, h3⟩ := backfillCore_spec
      { s with
        cycles := s.cycles ++ [mkDraftCycle s.nextId t y m]
        nextId := s.nextId + 1 } t s.nextId y m (getSettings s t) hnd hbase
    have hbm1 : backfillMonth s t y m =
        setCycleStatusTotals
          { ({ s with
              cycles := s.cycles ++ [mkDraftCycle s.nextId t y m]
              nextId := s.nextId + 1 } : DbState) with
            items := s.items ++ new } t s.nextId "completed"
          ((cycleItems { s with
              cycles := s.cycles ++ [mkDraftCycle s.nextId t y m]
              nextId := s.nextId + 1 } t s.nextId).length + new.length)
          (sumGross (cycleItems { s with
              cycles := s.cycles ++ [mkDraftCycle s.nextId t y m]
              nextId := s.nextId + 1 } t s.nextId) + sumGross new) := by
      rw [backfillMonth, hens]
      exact h1
    have hfindE : findCycleByMonth
        { s with
          cycles := s.cycles ++ [mkDraftCycle s.nextId t y m]
          nextId := s.nextId + 1 } t y m =
        some (mkDraftCycle s.nextId t y m) := by
      show (s.cycles ++ [mkDraftCycle s.nextId t y m]).find? _ = _
      rw [List.find?_append, show s.cycles.find? (fun c =>
        c.tenant_id == t && c.year == y && c.month == m) = none from hfind]
      simp [mkDraftCycle]
    exact backfill_second_run
      { s with
        cycles := s.cycles ++ [mkDraftCycle s.nextId t y m]
        nextId := s.nextId + 1 } (backfillMonth s t y m) t y m
      (mkDraftCycle s.nextId t y m) hfindE rfl new (by rw [hbm1]; exact rfl)
      h2 h3

theorem claim_C5_witness :
    (backfillMonth (backfillMonth sEmpty 1 2024 1) 1 2024 1).items =
      (backfillMonth sEmpty 1 2024 1).items ∧
    (backfillMonth (backfillMonth sEmpty 1 2024 1) 1 2024 1).cycles =
      (backfillMonth sEmpty 1 2024 1).cycles :=
  claim_C5 sEmpty 1 2024 1 (by decide)

lemma ensureCycle_items (s : DbState) (t : Nat) (y m : ℤ) :
    ((ensureCycle s t y m).1).items = s.items := by
  cases h : findCycleByMonth s t y m with
  | some c => rw [ensureCycle_found s t y m c h]
  | none => rw [ensureCycle_created s t y m h]

/-- Claim C3 (amended): `process` never inserts or modifies any PayrollItem
row — on an approved cycle with existing items it only relabels the cycle to
`processing` and recomputes totals from those unchanged items, even when the
caller supplies edited replacement items — and the backfill never modifies
an existing row (it only appends new ones); the counterexample shows the
backfill may still append rows to a completed cycle, which the original
claim ruled out. -/
theorem claim_C3_amended :
    (∀ (s : DbState) (t cid : Nat) (ed : List EditedItem),
      ((processCycle s t cid ed).1).items = s.items) ∧
    (∀ (s : DbState) (t cid : Nat) (ed : List EditedItem) (cy : PayrollCycle),
      findCycle s t cid = some cy → cy.status = "approved" →
      cycleItems s t cid ≠ [] →
      processCycle s t cid ed =
        (setCycleStatusTotals s t cid "processing"
          (cycleItems s t cid).length (sumGross (cycleItems s t cid)),
         .ok ())) ∧
    (∀ (s : DbState) (t : Nat) (y m : ℤ), wellFormed s →
      ∃ new, (backfillMonth s t y m).items = s.items ++ new) := by
  refine ⟨processCycle_items, ?_, ?_⟩
  · intro s t cid ed cy hf hs hne
    simp only [processCycle, hf]
    rw [if_neg (by simp [hs])]
    by_cases he : ed ≠ []
    · rw [if_pos he, if_pos hne]
    · rw [if_neg he, if_pos (List.length_pos.mpr hne)]
  · intro s t y m hwf
    cases hfind : findCycleByMonth s t y m with
    | some c =>
      obtain ⟨new, h1, _, _⟩ :=
        backfillCore_spec s t c.id y m (getSettings s t)
          (eligibleEmployees_nodup s hwf.1 t _)
          (items_employee_in_withItems s hwf t y m c hfind)
      have hbm1 : backfillMonth s t y m =
          setCycleStatusTotals { s with items := s.items ++ new } t c.id
            "completed" ((cycleItems s t c.id).length + new.length)
            (sumGross (cycleItems s t c.id) + sumGross new) := by
        rw [backfillMonth, ensureCycle_found s t y m c hfind]
        exact h1
      refine ⟨new, ?_⟩
      rw [hbm1]
      exact rfl
    | none =>
      obtain ⟨new, h1, _, _⟩ := backfillCore_spec
        { s with
          cycles := s.cycles ++ [mkDraftCycle s.nextId t y m]
          nextId := s.nextId + 1 } t s.nextId y m (getSettings s t)
        (eligibleEmployees_nodup _ hwf.1 t _)
        (by
          intro r hr hcid
          exact absurd hcid (items_cycle_lt_nextId s hwf r hr))
      have hbm1 : backfillMonth s t y m =
          setCycleStatusTotals
            { ({ s with
                cycles := s.cycles ++ [mkDraftCycle s.nextId t y m]
                nextId := s.nextId + 1 } : DbState) with
              items := s.items ++ new } t s.nextId "completed"
            ((cycleItems { s with
                cycles := s.cycles ++ [mkDraftCycle s.nextId t y m]
                nextId := s.nextId + 1 } t s.nextId).length + new.length)
            (sumGross (cycleItems { s with
                cycles := s.cycles ++ [mkDraftCycle s.nextId t y m]
                nextId := s.nextId + 1 } t s.nextId) + sumGross new) := by
        rw [backfillMonth, ensureCycle_created s t y m hfind]
        exact h1
      refine ⟨new, ?_⟩
      rw [hbm1]
      exact rfl

theorem claim_C3_witness :
    processCycle sApprovedOneItem 1 1 [] =
      (setCycleStatusTotals sApprovedOneItem 1 1 "processing"
        (cycleItems sApprovedOneItem 1 1).length
        (sumGross (cycleItems sApprovedOneItem 1 1)), Except.ok ()) ∧
    (∃ new, (backfillMonth sEmpty 1 2024 1).items = sEmpty.items ++ new) :=
  ⟨claim_C3_amended.2.1 sApprovedOneItem 1 1 []
      ⟨1, 1, 2025, 5, "approved", 0, 0⟩ rfl rfl (by decide),
   claim_C3_amended.2.2 sEmpty 1 2024 1 (by decide)⟩

lemma itemConservedB_of_mk (r : ItemRow)
    (h : ∃ k lr st, r.payload = computeSalaryItem k lr st) :
    itemConservedB r = true := by
  obtain ⟨k, lr, st, h⟩ := h
  unfold itemConservedB
  rw [h]
  simp only [Bool.and_eq_true, beq_iff_eq]
  exact ⟨computeSalaryItem_deductions k lr st, computeSalaryItem_net k lr st⟩

lemma all_conserved_of_mem {items orig : List ItemRow}
    (h : ∀ r ∈ items,
      r ∈ orig ∨ ∃ k lr st, r.payload = computeSalaryItem k lr st) :
    (items.filter (fun r => decide (r ∉ orig))).all itemConservedB = true := by
  rw [List.all_eq_true]
  intro r hr
  rw [List.mem_filter] at hr
  rcases h r hr.1 with hmem | hmk
  · exact absurd hmem (of_decide_eq_true hr.2)
  · exact itemConservedB_of_mk r hmk

lemma backfillCore_items_mem (sE : DbState) (t cid : Nat) (y m : ℤ)
    (st : PayrollSettings) :
    ∀ r ∈ (backfillCore sE t cid y m st).items,
      r ∈ sE.items ∨ ∃ k lr, r.payload = computeSalaryItem k lr st := by
  intro r hr
  simp only [backfillCore] at hr
  exact foldl_items_mem _
    (fun r => ∃ k lr, r.payload = computeSalaryItem k lr st)
    (fun acc e => backfillStep_items_mem sE t cid y m st _ acc e) _ _ r hr

lemma backfillMonth_items_mem (s : DbState) (t : Nat) (y m : ℤ) :
    ∀ r ∈ (backfillMonth s t y m).items,
      r ∈ s.items ∨ ∃ k lr st, r.payload = computeSalaryItem k lr st := by
  intro r hr
  rw [backfillMonth] at hr
  rcases backfillCore_items_mem _ _ _ _ _ _ r hr with h | ⟨k, lr, hp⟩
  · left
    rw [← ensureCycle_items s t y m]
    exact h
  · exact Or.inr ⟨k, lr, _, hp⟩

lemma createCycle_items_mem (s : DbState) (t : Nat)
    (month year nY nM : ℤ) :
    ∀ r ∈ ((createCycle s t month year nY nM).1).items,
      r ∈ s.items ∨ ∃ k lr st, r.payload = computeSalaryItem k lr st := by
  intro r hr
  cases hfind : findCycleByMonth s t year month with
  | some c =>
    simp only [createCycle, hfind] at hr
    exact Or.inl hr
  | none =>
    simp only [createCycle, hfind] at hr
    cases hpast : isPastMonth year month nY nM
    · rw [hpast] at hr
      simp only [Bool.not_false, if_true] at hr
      exact Or.inl hr
    · rw [hpast] at hr
      simp only [Bool.not_true] at hr
      rw [if_neg (by simp)] at hr
      rcases foldl_items_mem _
        (fun r => ∃ k lr, r.payload =
          computeSalaryItem k lr (getSettings s t))
        (fun acc e => createStep_items_mem _ t s.nextId year month
          (getSettings s t) acc e) _ _ r hr with h | ⟨k, lr, hp⟩
      · exact Or.inl h
      · exact Or.inr ⟨k, lr, _, hp⟩

/-- Claim C1: the salary calculator's outputs satisfy
`deductions = pf + esi + pt + tds`, `net = adjustedGross − deductions`, and
`adjustedGross = (grossMonthly / totalWorkingDays) × paidDays` exactly, and
every PayrollItem row produced by the backfill, past-month create, or
process path (any result row not already present in the store) passes the
decidable conservation check. -/
theorem claim_C1 :
    (∀ (k : Components) (lr : LopResult) (st : PayrollSettings),
      (computeSalaryItem k lr st).deductions =
        (computeSalaryItem k lr st).pf_deduction +
        (computeSalaryItem k lr st).esi_deduction +
        (computeSalaryItem k lr st).pt_deduction +
        (computeSalaryItem k lr st).tds_deduction ∧
      (computeSalaryItem k lr st).net_salary =
        (computeSalaryItem k lr st).gross_salary -
        (computeSalaryItem k lr st).deductions ∧
      (computeSalaryItem k lr st).gross_salary =
        k.gross / lr.totalWorkingDays * lr.paidDays) ∧
    (∀ (s : DbState) (t : Nat) (y m : ℤ),
      ((backfillMonth s t y m).items.filter
        (fun r => decide (r ∉ s.items))).all itemConservedB = true) ∧
    (∀ (s : DbState) (t : Nat) (month year nowY nowM : ℤ),
      (((createCycle s t month year nowY nowM).1).items.filter
        (fun r => decide (r ∉ s.items))).all itemConservedB = true) ∧
    (∀ (s : DbState) (t cid : Nat) (ed : List EditedItem),
      (((processCycle s t cid ed).1).items.filter
        (fun r => decide (r ∉ s.items))).all itemConservedB = true) := by
  refine ⟨?_, ?_, ?_, ?_⟩
  · intro k lr st
    exact ⟨computeSalaryItem_deductions k lr st,
      computeSalaryItem_net k lr st, computeSalaryItem_gross k lr st⟩
  · intro s t y m
    exact all_conserved_of_mem (backfillMonth_items_mem s t y m)
  · intro s t month year nowY nowM
    exact all_conserved_of_mem (createCycle_items_mem s t month year nowY nowM)
  · intro s t cid ed
    apply all_conserved_of_mem
    intro r hr
    rw [processCycle_items] at hr
    exact Or.inl hr

end Payroll
